import Mathlib

/-!
Verification of the V4-front Forth-style bytecode compiler
(`src/vendor/V4-front/src/compile.cpp` and `bytecode_io.cpp`) against its
natural-language specification.

The compiler is embedded shallowly: the token loop of `compile_internal`
becomes a step function over an explicit compiler state, byte buffers become
`List Nat` together with the capacity counter that drives the doubling
allocator, and `realloc`/`malloc`/`strdup` failure is made explicit through an
allocation oracle `Nat → Bool` (the n-th allocation succeeds iff the oracle
answers `true` at n).  All definitions are executable.
-/

namespace V4Front

/-! ## Characters, case-insensitive comparison, whitespace -/

/-- C locale `isspace` on the six ASCII whitespace characters
(`' '`, `'\t'`, `'\n'`, `'\v'`, `'\f'`, `'\r'`), as used by the token loop. -/
def isSpaceC (c : Char) : Bool :=
  c = ' ' || c = '\t' || c = '\n' || c = '\x0b' || c = '\x0c' || c = '\r'

/-- C locale `tolower` restricted to ASCII: shifts `'A'..'Z'` down, identity
elsewhere (the source applies it to unsigned chars; bytes outside `A..Z` are
unchanged in the C locale). -/
def toLowerA (c : Char) : Char :=
  if 'A' ≤ c && c ≤ 'Z' then Char.ofNat (c.toNat + 32) else c

/-- `str_eq_ci` from compile.cpp: equal length and pointwise equality after
ASCII lowering. -/
def strEqCiL : List Char → List Char → Bool
  | [], [] => true
  | a :: as, b :: bs => (toLowerA a = toLowerA b) && strEqCiL as bs
  | _, _ => false

/-! ## Opcode bytes

Modelled from the spec: the opcode catalog `v4/opcodes.hpp` is not part of
this repository's sources (it belongs to the external VM).  The byte values
that the spec pins down in §8 are used exactly
(`LIT=0x00`, `DUP=0x01`, `ADD=0x10`, `JMP=0x40`, `JZ=0x41`, `CALL=0x50`,
`RET=0x51`, `SYS=0x60`, `LGET0=0x7C`, `LSET1=0x7F`, `LINC=0x80`); the
remaining mnemonics, whose numeric values the spec leaves open, are assigned
distinct placeholder bytes. -/

def opLIT : Nat := 0x00
def opDUP : Nat := 0x01
def opDROP : Nat := 0x02
def opSWAP : Nat := 0x03
def opOVER : Nat := 0x04
def opLIT0 : Nat := 0x05
def opLITN1 : Nat := 0x06
def opTOR : Nat := 0x07
def opFROMR : Nat := 0x08
def opRFETCH : Nat := 0x09
def opADD : Nat := 0x10
def opSUB : Nat := 0x11
def opMUL : Nat := 0x12
def opDIV : Nat := 0x13
def opMOD : Nat := 0x14
def opINC : Nat := 0x15
def opDEC : Nat := 0x16
def opDIVU : Nat := 0x17
def opMODU : Nat := 0x18
def opEQ : Nat := 0x20
def opNE : Nat := 0x21
def opLT : Nat := 0x22
def opLE : Nat := 0x23
def opGT : Nat := 0x24
def opGE : Nat := 0x25
def opLTU : Nat := 0x26
def opLEU : Nat := 0x27
def opAND : Nat := 0x28
def opOR : Nat := 0x29
def opXOR : Nat := 0x2A
def opINVERT : Nat := 0x2B
def opSHL : Nat := 0x2C
def opSHR : Nat := 0x2D
def opSAR : Nat := 0x2E
def opLOAD : Nat := 0x30
def opSTORE : Nat := 0x31
def opLOAD8U : Nat := 0x32
def opSTORE8 : Nat := 0x33
def opLOAD16U : Nat := 0x34
def opSTORE16 : Nat := 0x35
def opJMP : Nat := 0x40
def opJZ : Nat := 0x41
def opCALL : Nat := 0x50
def opRET : Nat := 0x51
def opSYS : Nat := 0x60
def opLGET : Nat := 0x78
def opLSET : Nat := 0x79
def opLTEE : Nat := 0x7A
def opLGET0 : Nat := 0x7C
def opLGET1 : Nat := 0x7D
def opLSET0 : Nat := 0x7E
def opLSET1 : Nat := 0x7F
def opLINC : Nat := 0x80
def opLDEC : Nat := 0x81

/-- `OPCODE_TABLE` from compile.cpp: token, opcode, case-sensitive flag, in
source order. -/
def OPCODE_TABLE : List (String × Nat × Bool) :=
  [("DUP", opDUP, false), ("DROP", opDROP, false), ("SWAP", opSWAP, false),
   ("OVER", opOVER, false),
   (">R", opTOR, false), ("R>", opFROMR, false), ("R@", opRFETCH, false),
   ("I", opRFETCH, false),
   ("+", opADD, true), ("-", opSUB, true), ("*", opMUL, true),
   ("/", opDIV, true), ("MOD", opMOD, false), ("1+", opINC, false),
   ("1-", opDEC, false), ("U/", opDIVU, false), ("UMOD", opMODU, false),
   ("=", opEQ, true), ("==", opEQ, true), ("<>", opNE, true),
   ("!=", opNE, true), ("<", opLT, true), ("<=", opLE, true),
   (">", opGT, true), (">=", opGE, true), ("U<", opLTU, false),
   ("U<=", opLEU, false),
   ("AND", opAND, false), ("OR", opOR, false), ("XOR", opXOR, false),
   ("INVERT", opINVERT, false), ("LSHIFT", opSHL, false),
   ("RSHIFT", opSHR, false), ("ARSHIFT", opSAR, false),
   ("@", opLOAD, true), ("!", opSTORE, true), ("C@", opLOAD8U, false),
   ("C!", opSTORE8, false), ("W@", opLOAD16U, false), ("W!", opSTORE16, false),
   ("L@0", opLGET0, false), ("L@1", opLGET1, false), ("L!0", opLSET0, false),
   ("L!1", opLSET1, false)]

/-- `lookup_simple_opcode`: linear scan, case-sensitive entries use byte-exact
comparison, the rest `str_eq_ci`. -/
def lookup_simple_opcode (tok : List Char) : Option Nat :=
  match OPCODE_TABLE.find?
      (fun e => if e.2.2 then tok = e.1.data else strEqCiL tok e.1.data) with
  | some e => some e.2.1
  | none => none

/-! ## Error codes (`FrontErr` from errors.hpp, the members used by
compile.cpp) -/

inductive FrontErr where
  | OK
  | UnknownToken
  | InvalidInteger
  | OutOfMemory
  | BufferTooSmall
  | ElseWithoutIf
  | ThenWithoutIf
  | DuplicateElse
  | UnclosedIf
  | UntilWithoutBegin
  | WhileWithoutBegin
  | RepeatWithoutBegin
  | RepeatWithoutWhile
  | DuplicateWhile
  | UntilAfterWhile
  | AgainWithoutBegin
  | AgainAfterWhile
  | UnclosedBegin
  | LoopWithoutDo
  | PLoopWithoutDo
  | LeaveWithoutDo
  | LeaveDepthExceeded
  | UnclosedDo
  | NestedColon
  | ColonWithoutName
  | SemicolonWithoutColon
  | DuplicateWord
  | DictionaryFull
  | UnclosedColon
  | RecurseOutsideWord
  | ControlDepthExceeded
  | MissingSysId
  | InvalidSysId
  | MissingLocalIdx
  | InvalidLocalIdx
  deriving DecidableEq, Repr

/-! ## Integer parsing: `try_parse_int` = `strtol(tok, &endptr, 0)` plus the
whole-token and (vacuous) checks of the source.  Modelled for an LP64
platform: `long` is 64-bit, overflow clamps to `LONG_MAX`/`LONG_MIN`, and the
final `(int32_t)` cast truncates to 32 bits two's-complement. -/

def LONG_MAX : Int := 9223372036854775807
def LONG_MIN : Int := -9223372036854775808

def clampLong (v : Int) : Int :=
  if v > LONG_MAX then LONG_MAX else if v < LONG_MIN then LONG_MIN else v

/-- Value of `c` as a digit below `base`, if any (0-9, a-f, A-F; code points
48-57, 97-102, 65-70). -/
def digitVal? (base : Nat) (c : Char) : Option Nat :=
  let v : Option Nat :=
    if 48 ≤ c.toNat ∧ c.toNat ≤ 57 then some (c.toNat - 48)
    else if 97 ≤ c.toNat ∧ c.toNat ≤ 102 then some (c.toNat - 87)
    else if 65 ≤ c.toNat ∧ c.toNat ≤ 70 then some (c.toNat - 55)
    else none
  match v with
  | some d => if d < base then some d else none
  | none => none

/-- Consume a maximal run of digits in `base`; returns the value, the number
of digits consumed and the rest. -/
def parseDigits (base : Nat) : List Char → Nat → Nat → Nat × Nat × List Char
  | [], acc, n => (acc, n, [])
  | c :: cs, acc, n =>
    match digitVal? base c with
    | some d => parseDigits base cs (acc * base + d) (n + 1)
    | none => (acc, n, c :: cs)

def isHexDigitC (c : Char) : Bool := (digitVal? 16 c).isSome

/-- Model of `strtol(t, &endptr, 0)`: skip whitespace, optional `+`/`-` sign,
base auto-detection (`0x`/`0X` hex when followed by a hex digit, other leading
`0` octal, else decimal); returns `none` when no digit was converted
(`endptr == t`), otherwise the clamped long value and the unconsumed rest
(`endptr`). -/
def strtol0 (t : List Char) : Option (Int × List Char) :=
  let t0 := t.dropWhile isSpaceC
  let sgnRest : Int × List Char :=
    match t0 with
    | '-' :: r => (-1, r)
    | '+' :: r => (1, r)
    | _ => (1, t0)
  match sgnRest.2 with
  | '0' :: rs =>
    if (match rs with
        | x :: r' => (x = 'x' || x = 'X') &&
            (match r' with | d :: _ => isHexDigitC d | [] => false)
        | [] => false) then
      let pr := parseDigits 16 (rs.drop 1) 0 0
      some (clampLong (sgnRest.1 * (pr.1 : Int)), pr.2.2)
    else
      let pr := parseDigits 8 ('0' :: rs) 0 0
      some (clampLong (sgnRest.1 * (pr.1 : Int)), pr.2.2)
  | _ =>
    let pr := parseDigits 10 sgnRest.2 0 0
    if pr.2.1 = 0 then none
    else some (clampLong (sgnRest.1 * (pr.1 : Int)), pr.2.2)

/-- `(int32_t)` conversion of a (64-bit) long value: truncation to 32 bits,
two's-complement. -/
def toInt32 (v : Int) : Int :=
  let m := v % 4294967296
  if m ≥ 2147483648 then m - 4294967296 else m

/-- `try_parse_int` from compile.cpp: succeed iff `strtol` converted at least
one digit and consumed the whole token; the long value is cast to `int32_t`. -/
def try_parse_int (t : List Char) : Option Int :=
  match strtol0 t with
  | none => none
  | some (v, rest) => if rest = [] then some (toInt32 v) else none

/-! ## Little-endian immediates -/

/-- The two little-endian bytes of the `int16_t` encoding of `v` (uint32
arithmetic followed by an `int16_t` cast is truncation mod 2^16). -/
def i16bytes (v : Int) : List Nat :=
  let u := (v % 65536).toNat
  [u % 256, u / 256]

/-- The four little-endian bytes of the `int32_t` value `v`. -/
def i32bytes (v : Int) : List Nat :=
  let u := (v % 4294967296).toNat
  [u % 256, u / 256 % 256, u / 65536 % 256, u / 16777216 % 256]

/-! ## Tokenizer

The token loop of `compile_internal` skips runs of ASCII whitespace and takes
maximal runs of non-whitespace bytes.  `tokenize` produces that token list
(implemented as a right fold so that it is structurally recursive; the flag
records whether the character to the right continued a token). -/

def tokStep (c : Char) (acc : List (List Char) × Bool) :
    List (List Char) × Bool :=
  if isSpaceC c then (acc.1, false)
  else
    match acc.2, acc.1 with
    | true, t :: ts => ((c :: t) :: ts, true)
    | _, ts => ([c] :: ts, true)

def tokenize (cs : List Char) : List (List Char) :=
  (cs.foldr tokStep ([], false)).1

/-! ## Compiler state -/

/-- A word definition: `WordDefEntry` / `V4FrontWord` (name stored with
original case, body bytes). -/
structure WordDef where
  name : String
  code : List Nat
  deriving DecidableEq, Repr

/-- The caller-visible output structure `V4FrontBuf`.  `none` models a null
pointer. -/
structure V4FrontBuf where
  data : Option (List Nat)
  size : Nat
  words : Option (List WordDef)
  word_count : Nat
  deriving DecidableEq, Repr

def zeroBuf : V4FrontBuf := ⟨none, 0, none, 0⟩

/-- Is the output structure zero-initialized (all pointers null, all counts
zero)? -/
def isZeroInit (b : V4FrontBuf) : Bool :=
  b.data = none && b.size = 0 && b.words = none && b.word_count = 0

/-- Result of one compilation call: the returned error code and the contents
of the caller's output structure after the call. -/
structure CompRes where
  err : FrontErr
  out : V4FrontBuf
  deriving DecidableEq, Repr

/-- A control frame (`ControlFrame`); the C struct carries all fields with a
tag, but each field is only read under its own tag, so the tagged sum is an
equivalent model. -/
inductive Frame where
  | ifF (jzPatch : Nat) (jmpPatch : Nat) (hasElse : Bool)
  | beginF (beginAddr : Nat) (whilePatch : Nat) (hasWhile : Bool)
  | doF (doAddr : Nat) (leaves : List Nat)
  deriving DecidableEq, Repr

def MAX_CONTROL_DEPTH : Nat := 32
def MAX_LEAVE_DEPTH : Nat := 8
def MAX_WORDS : Nat := 256
def MAX_WORD_NAME_LEN : Nat := 64
def MAX_TOKEN_LEN : Nat := 256

/-- A growable byte buffer together with its capacity (the capacity only
matters to decide when `append_byte` performs a reallocation). -/
structure EmitSt where
  buf : List Nat
  cap : Nat
  deriving DecidableEq, Repr

/-- The in-flight compilation state of `compile_internal`: main buffer, the
pending word's buffer, definition mode, current word name, word dictionary,
control stack (head = top) and the running allocation counter. -/
structure St where
  main : EmitSt
  wordB : EmitSt
  inDef : Bool
  curName : String
  dict : List WordDef
  ctrl : List Frame
  cnt : Nat
  deriving DecidableEq, Repr

def initSt : St := ⟨⟨[], 0⟩, ⟨[], 0⟩, false, "", [], [], 0⟩

/-- `append_byte`: realloc (doubling, initial capacity 64) when size reaches
capacity; the reallocation is the `cnt`-th allocation and fails (with
`OutOfMemory`) iff the oracle answers false there. -/
def appendByteE (oracle : Nat → Bool) (e : EmitSt) (cnt : Nat) (b : Nat) :
    Except FrontErr (EmitSt × Nat) :=
  if e.buf.length ≥ e.cap then
    if oracle cnt then
      .ok (⟨e.buf ++ [b], if e.cap = 0 then 64 else e.cap * 2⟩, cnt + 1)
    else .error .OutOfMemory
  else .ok (⟨e.buf ++ [b], e.cap⟩, cnt)

/-- The buffer currently emitted into (`*current_bc`): the word body while in
a definition, the main buffer otherwise. -/
def curData (s : St) : List Nat :=
  if s.inDef then s.wordB.buf else s.main.buf

def curLen (s : St) : Nat := (curData s).length

/-- Append one byte to the current buffer. -/
def emitByte (oracle : Nat → Bool) (s : St) (b : Nat) : Except FrontErr St :=
  if s.inDef then
    match appendByteE oracle s.wordB s.cnt b with
    | .error e => .error e
    | .ok (w, c) => .ok { s with wordB := w, cnt := c }
  else
    match appendByteE oracle s.main s.cnt b with
    | .error e => .error e
    | .ok (m, c) => .ok { s with main := m, cnt := c }

/-- Append a list of bytes one `append_byte` at a time (as the source does). -/
def emitList (oracle : Nat → Bool) : St → List Nat → Except FrontErr St
  | s, [] => .ok s
  | s, b :: bs =>
    match emitByte oracle s b with
    | .error e => .error e
    | .ok s' => emitList oracle s' bs

/-- `backpatch_i16_le` on the current buffer: overwrite the two bytes at
`pos`, `pos+1` with the little-endian `int16` encoding of `v`.  (`List.set`
out of range is a no-op; in C such a write would be out of bounds of the live
bytes and is either overwritten by later appends or undefined behaviour.) -/
def patchCur (s : St) (pos : Nat) (v : Int) : St :=
  let u := (v % 65536).toNat
  if s.inDef then
    { s with wordB :=
        ⟨(s.wordB.buf.set pos (u % 256)).set (pos + 1) (u / 256), s.wordB.cap⟩ }
  else
    { s with main :=
        ⟨(s.main.buf.set pos (u % 256)).set (pos + 1) (u / 256), s.main.cap⟩ }

/-- First dictionary index whose name case-insensitively equals the token
(the source scans indices 0.. and stops at the first hit). -/
def dictFindCi (dict : List WordDef) (tok : List Char) : Option Nat :=
  dict.findIdx? (fun w => strEqCiL tok w.name.data)

/-! ## Per-keyword handlers (the branch bodies of the token loop) -/

/-- `handle_colon_start`: reject nested `:`, read the next raw token as the
word name, check its length, reject names already in the dictionary, reject a
full dictionary, and switch emission to a fresh word buffer. -/
def handleColon (rest : List (List Char)) (s : St) :
    Except FrontErr (St × Bool) :=
  if s.inDef then .error .NestedColon
  else
    match rest with
    | [] => .error .ColonWithoutName
    | name :: _ =>
      if name.length = 0 || name.length ≥ MAX_WORD_NAME_LEN then
        .error .ColonWithoutName
      else if s.dict.any (fun w => strEqCiL w.name.data name) then
        .error .DuplicateWord
      else if s.dict.length ≥ MAX_WORDS then .error .DictionaryFull
      else
        .ok ({ s with inDef := true, curName := ⟨name⟩, wordB := ⟨[], 0⟩ },
             true)

/-- `handle_semicolon_end`: require definition mode, append `RET` to the word
body, move the body into the dictionary, and switch emission back to the main
buffer. -/
def handleSemicolon (oracle : Nat → Bool) (s : St) :
    Except FrontErr (St × Bool) :=
  if s.inDef = false then .error .SemicolonWithoutColon
  else
    match emitByte oracle s opRET with
    | .error e => .error e
    | .ok s1 =>
      .ok ({ s1 with
              dict := s1.dict ++ [⟨s1.curName, s1.wordB.buf⟩],
              inDef := false, curName := "", wordB := ⟨[], 0⟩ },
           false)

def handleBegin (s : St) : Except FrontErr (St × Bool) :=
  if s.ctrl.length ≥ MAX_CONTROL_DEPTH then .error .ControlDepthExceeded
  else .ok ({ s with ctrl := .beginF (curLen s) 0 false :: s.ctrl }, false)

def handleDo (oracle : Nat → Bool) (s : St) : Except FrontErr (St × Bool) :=
  if s.ctrl.length ≥ MAX_CONTROL_DEPTH then .error .ControlDepthExceeded
  else
    match emitList oracle s [opSWAP, opTOR, opTOR] with
    | .error e => .error e
    | .ok s1 => .ok ({ s1 with ctrl := .doF (curLen s1) [] :: s1.ctrl }, false)

def handleUntil (oracle : Nat → Bool) (s : St) : Except FrontErr (St × Bool) :=
  match s.ctrl with
  | [] => .error .UntilWithoutBegin
  | .ifF .. :: _ => .error .UntilWithoutBegin
  | .doF .. :: _ => .error .UntilWithoutBegin
  | .beginF beginAddr _ hasWhile :: fs =>
    if hasWhile then .error .UntilAfterWhile
    else
      match emitByte oracle s opJZ with
      | .error e => .error e
      | .ok s1 =>
        match emitList oracle s1 (i16bytes ((beginAddr : Int) - (curLen s1 + 2))) with
        | .error e => .error e
        | .ok s2 => .ok ({ s2 with ctrl := fs }, false)

def handleWhile (oracle : Nat → Bool) (s : St) : Except FrontErr (St × Bool) :=
  match s.ctrl with
  | [] => .error .WhileWithoutBegin
  | .ifF .. :: _ => .error .WhileWithoutBegin
  | .doF .. :: _ => .error .WhileWithoutBegin
  | .beginF beginAddr _ hasWhile :: fs =>
    if hasWhile then .error .DuplicateWhile
    else
      match emitByte oracle s opJZ with
      | .error e => .error e
      | .ok s1 =>
        match emitList oracle s1 (i16bytes 0) with
        | .error e => .error e
        | .ok s2 =>
          .ok ({ s2 with ctrl := .beginF beginAddr (curLen s1) true :: fs },
               false)

def handleRepeat (oracle : Nat → Bool) (s : St) : Except FrontErr (St × Bool) :=
  match s.ctrl with
  | [] => .error .RepeatWithoutBegin
  | .ifF .. :: _ => .error .RepeatWithoutBegin
  | .doF .. :: _ => .error .RepeatWithoutBegin
  | .beginF beginAddr whilePatch hasWhile :: fs =>
    if hasWhile = false then .error .RepeatWithoutWhile
    else
      match emitByte oracle s opJMP with
      | .error e => .error e
      | .ok s1 =>
        match emitList oracle s1 (i16bytes ((beginAddr : Int) - (curLen s1 + 2))) with
        | .error e => .error e
        | .ok s2 =>
          .ok ({ patchCur s2 whilePatch ((curLen s2 : Int) - (whilePatch + 2))
                 with ctrl := fs }, false)

def handleAgain (oracle : Nat → Bool) (s : St) : Except FrontErr (St × Bool) :=
  match s.ctrl with
  | [] => .error .AgainWithoutBegin
  | .ifF .. :: _ => .error .AgainWithoutBegin
  | .doF .. :: _ => .error .AgainWithoutBegin
  | .beginF beginAddr _ hasWhile :: fs =>
    if hasWhile then .error .AgainAfterWhile
    else
      match emitByte oracle s opJMP with
      | .error e => .error e
      | .ok s1 =>
        match emitList oracle s1 (i16bytes ((beginAddr : Int) - (curLen s1 + 2))) with
        | .error e => .error e
        | .ok s2 => .ok ({ s2 with ctrl := fs }, false)

/-- `LEAVE`: find the innermost `DO` frame (scanning from the top), bound the
number of recorded leaves, emit `R> R> DROP DROP JMP 0000` and record the
placeholder position in that frame. -/
def handleLeave (oracle : Nat → Bool) (s : St) : Except FrontErr (St × Bool) :=
  if s.ctrl.length = 0 then .error .LeaveWithoutDo
  else
    match s.ctrl.findIdx? (fun f => match f with | .doF .. => true | _ => false) with
    | none => .error .LeaveWithoutDo
    | some i =>
      match s.ctrl.get? i with
      | some (.doF doAddr leaves) =>
        if leaves.length ≥ MAX_LEAVE_DEPTH then .error .LeaveDepthExceeded
        else
          match emitList oracle s [opFROMR, opFROMR, opDROP, opDROP, opJMP] with
          | .error e => .error e
          | .ok s1 =>
            match emitList oracle s1 (i16bytes 0) with
            | .error e => .error e
            | .ok s2 =>
              .ok ({ s2 with
                      ctrl := s2.ctrl.set i (.doF doAddr (leaves ++ [curLen s1])) },
                   false)
      | _ => .error .LeaveWithoutDo

/-- Shared tail of `LOOP`/`+LOOP`: after the increment prefix has been
emitted, emit `R> OVER OVER < JZ 0000 SWAP >R >R JMP back`, backpatch the
`JZ`, emit `DROP DROP`, backpatch every recorded `LEAVE`, and pop. -/
def loopTail (oracle : Nat → Bool) (s : St) (doAddr : Nat) (leaves : List Nat)
    (fs : List Frame) : Except FrontErr (St × Bool) :=
  match emitList oracle s [opFROMR, opOVER, opOVER, opLT, opJZ] with
  | .error e => .error e
  | .ok s1 =>
    match emitList oracle s1 (i16bytes 0) with
    | .error e => .error e
    | .ok s2 =>
      match emitList oracle s2 [opSWAP, opTOR, opTOR, opJMP] with
      | .error e => .error e
      | .ok s3 =>
        match emitList oracle s3 (i16bytes ((doAddr : Int) - (curLen s3 + 2))) with
        | .error e => .error e
        | .ok s4 =>
          match emitList oracle
              (patchCur s4 (curLen s1) ((curLen s4 : Int) - (curLen s1 + 2)))
              [opDROP, opDROP] with
          | .error e => .error e
          | .ok s6 =>
            .ok ({ leaves.foldl
                    (fun t a => patchCur t a ((curLen s6 : Int) - (a + 2))) s6
                   with ctrl := fs }, false)

def handleLoop (oracle : Nat → Bool) (s : St) : Except FrontErr (St × Bool) :=
  match s.ctrl with
  | [] => .error .LoopWithoutDo
  | .ifF .. :: _ => .error .LoopWithoutDo
  | .beginF .. :: _ => .error .LoopWithoutDo
  | .doF doAddr leaves :: fs =>
    match emitList oracle s ([opFROMR, opLIT] ++ i32bytes 1 ++ [opADD]) with
    | .error e => .error e
    | .ok s1 => loopTail oracle s1 doAddr leaves fs

def handlePLoop (oracle : Nat → Bool) (s : St) : Except FrontErr (St × Bool) :=
  match s.ctrl with
  | [] => .error .PLoopWithoutDo
  | .ifF .. :: _ => .error .PLoopWithoutDo
  | .beginF .. :: _ => .error .PLoopWithoutDo
  | .doF doAddr leaves :: fs =>
    match emitList oracle s [opFROMR, opADD] with
    | .error e => .error e
    | .ok s1 => loopTail oracle s1 doAddr leaves fs

def handleIf (oracle : Nat → Bool) (s : St) : Except FrontErr (St × Bool) :=
  if s.ctrl.length ≥ MAX_CONTROL_DEPTH then .error .ControlDepthExceeded
  else
    match emitByte oracle s opJZ with
    | .error e => .error e
    | .ok s1 =>
      match emitList oracle s1 (i16bytes 0) with
      | .error e => .error e
      | .ok s2 =>
        .ok ({ s2 with ctrl := .ifF (curLen s1) 0 false :: s2.ctrl }, false)

def handleElse (oracle : Nat → Bool) (s : St) : Except FrontErr (St × Bool) :=
  match s.ctrl with
  | [] => .error .ElseWithoutIf
  | .beginF .. :: _ => .error .ElseWithoutIf
  | .doF .. :: _ => .error .ElseWithoutIf
  | .ifF jzPatch _ hasElse :: fs =>
    if hasElse then .error .DuplicateElse
    else
      match emitByte oracle s opJMP with
      | .error e => .error e
      | .ok s1 =>
        match emitList oracle s1 (i16bytes 0) with
        | .error e => .error e
        | .ok s2 =>
          .ok ({ patchCur s2 jzPatch ((curLen s2 : Int) - (jzPatch + 2))
                 with ctrl := .ifF jzPatch (curLen s1) true :: fs }, false)

def handleThen (s : St) : Except FrontErr (St × Bool) :=
  match s.ctrl with
  | [] => .error .ThenWithoutIf
  | .beginF .. :: _ => .error .ThenWithoutIf
  | .doF .. :: _ => .error .ThenWithoutIf
  | .ifF jzPatch jmpPatch hasElse :: fs =>
    if hasElse then
      .ok (patchCur { s with ctrl := fs } jmpPatch
            ((curLen s : Int) - (jmpPatch + 2)), false)
    else
      .ok (patchCur { s with ctrl := fs } jzPatch
            ((curLen s : Int) - (jzPatch + 2)), false)

/-- The shared shape of `SYS`, `L@`, `L!`, `L>!`, `L++`, `L--`: consume the
next raw token (truncated to the token buffer size), parse it as an integer
in `[0,255]`, and emit the opcode byte followed by the operand byte. -/
def handleOperand (oracle : Nat → Bool) (op : Nat) (missingErr invalidErr : FrontErr)
    (rest : List (List Char)) (s : St) : Except FrontErr (St × Bool) :=
  match rest with
  | [] => .error missingErr
  | t :: _ =>
    match try_parse_int (t.take (MAX_TOKEN_LEN - 1)) with
    | none => .error invalidErr
    | some v =>
      if v < 0 || v > 255 then .error invalidErr
      else
        match emitList oracle s [op, v.toNat] with
        | .error e => .error e
        | .ok s1 => .ok (s1, true)

def handleRecurse (oracle : Nat → Bool) (s : St) : Except FrontErr (St × Bool) :=
  if s.inDef = false then .error .RecurseOutsideWord
  else
    match emitList oracle s (opCALL :: i16bytes (s.dict.length : Int)) with
    | .error e => .error e
    | .ok s1 => .ok (s1, false)

/-! ## Composite expansions (fixed byte templates) -/

def rotBytes : List Nat := [opTOR, opSWAP, opFROMR, opSWAP]

def jBytes : List Nat :=
  [opFROMR, opFROMR, opFROMR, opDUP, opTOR, opTOR, opTOR]

def kBytes : List Nat :=
  [opFROMR, opFROMR, opFROMR, opFROMR, opFROMR, opDUP,
   opTOR, opTOR, opTOR, opTOR, opTOR]

def negateBytes : List Nat := [opLIT0, opSWAP, opSUB]

def qdupBytes : List Nat := [opDUP, opDUP, opJZ, 1, 0, opDUP]

def absBytes : List Nat :=
  [opDUP, opLIT0, opLT, opJZ, 3, 0, opLIT0, opSWAP, opSUB]

def minBytes : List Nat :=
  [opOVER, opOVER, opLT, opJZ, 4, 0, opDROP, opJMP, 2, 0, opSWAP, opDROP]

def maxBytes : List Nat :=
  [opOVER, opOVER, opGT, opJZ, 4, 0, opDROP, opJMP, 2, 0, opSWAP, opDROP]

def twoSwapBytes : List Nat := rotBytes ++ [opTOR] ++ rotBytes ++ [opFROMR]

def twoOverBytes : List Nat :=
  [opTOR, opTOR, opOVER, opOVER, opFROMR, opFROMR] ++ twoSwapBytes

def plusStoreBytes : List Nat :=
  [opDUP, opTOR, opLOAD, opADD, opFROMR, opSTORE]

/-! ## The token dispatch (`compile_internal`'s loop body) -/

/-- Does the token case-insensitively match one of the structural or
operand-taking keywords handled before the word-table lookup?  (Exactly the
`str_eq_ci` checks of the source's if-chain, in source order.) -/
def isReservedTok (tok : List Char) : Bool :=
  strEqCiL tok ":".data || strEqCiL tok ";".data ||
  strEqCiL tok "BEGIN".data || strEqCiL tok "DO".data ||
  strEqCiL tok "UNTIL".data || strEqCiL tok "WHILE".data ||
  strEqCiL tok "REPEAT".data || strEqCiL tok "AGAIN".data ||
  strEqCiL tok "LEAVE".data || strEqCiL tok "LOOP".data ||
  strEqCiL tok "+LOOP".data || strEqCiL tok "IF".data ||
  strEqCiL tok "ELSE".data || strEqCiL tok "THEN".data ||
  strEqCiL tok "EXIT".data || strEqCiL tok "SYS".data ||
  strEqCiL tok "EMIT".data || strEqCiL tok "KEY".data ||
  strEqCiL tok "L++".data || strEqCiL tok "L--".data ||
  strEqCiL tok "L@".data || strEqCiL tok "L!".data ||
  strEqCiL tok "L>!".data || strEqCiL tok "RECURSE".data

/-- Does the token case-insensitively match one of the composite pseudo-words
(including `J` and `K`)? -/
def isCompositeTok (tok : List Char) : Bool :=
  strEqCiL tok "J".data || strEqCiL tok "K".data ||
  strEqCiL tok "ROT".data || strEqCiL tok "NIP".data ||
  strEqCiL tok "TUCK".data || strEqCiL tok "NEGATE".data ||
  strEqCiL tok "?DUP".data || strEqCiL tok "ABS".data ||
  strEqCiL tok "MIN".data || strEqCiL tok "MAX".data ||
  strEqCiL tok "0=".data || strEqCiL tok "0<".data ||
  strEqCiL tok "0>".data || strEqCiL tok "2DUP".data ||
  strEqCiL tok "2DROP".data || strEqCiL tok "2SWAP".data ||
  strEqCiL tok "2OVER".data || strEqCiL tok "+!".data ||
  strEqCiL tok "TRUE".data || strEqCiL tok "FALSE".data

/-- The dispatch tried after every keyword failed: local word table, integer
literal, `J`/`K`, composite pseudo-words, primitive table, `UnknownToken`
(in source order; the external context is absent, matching
`v4front_compile`'s null context). -/
def dispatchRest (oracle : Nat → Bool) (tok : List Char) (s : St) :
    Except FrontErr St :=
  match dictFindCi s.dict tok with
  | some i => emitList oracle s (opCALL :: i16bytes (i : Int))
  | none =>
  match try_parse_int tok with
  | some v => emitList oracle s (opLIT :: i32bytes v)
  | none =>
  if strEqCiL tok "J".data then emitList oracle s jBytes
  else if strEqCiL tok "K".data then emitList oracle s kBytes
  else if strEqCiL tok "ROT".data then emitList oracle s rotBytes
  else if strEqCiL tok "NIP".data then emitList oracle s [opSWAP, opDROP]
  else if strEqCiL tok "TUCK".data then emitList oracle s [opSWAP, opOVER]
  else if strEqCiL tok "NEGATE".data then emitList oracle s negateBytes
  else if strEqCiL tok "?DUP".data then emitList oracle s qdupBytes
  else if strEqCiL tok "ABS".data then emitList oracle s absBytes
  else if strEqCiL tok "MIN".data then emitList oracle s minBytes
  else if strEqCiL tok "MAX".data then emitList oracle s maxBytes
  else if strEqCiL tok "0=".data then emitList oracle s [opLIT0, opEQ]
  else if strEqCiL tok "0<".data then emitList oracle s [opLIT0, opLT]
  else if strEqCiL tok "0>".data then emitList oracle s [opLIT0, opGT]
  else if strEqCiL tok "2DUP".data then emitList oracle s [opOVER, opOVER]
  else if strEqCiL tok "2DROP".data then emitList oracle s [opDROP, opDROP]
  else if strEqCiL tok "2SWAP".data then emitList oracle s twoSwapBytes
  else if strEqCiL tok "2OVER".data then emitList oracle s twoOverBytes
  else if strEqCiL tok "+!".data then emitList oracle s plusStoreBytes
  else if strEqCiL tok "TRUE".data then emitByte oracle s opLITN1
  else if strEqCiL tok "FALSE".data then emitByte oracle s opLIT0
  else
    match lookup_simple_opcode tok with
    | some op => emitByte oracle s op
    | none => .error .UnknownToken

/-- Lift a plain emission result into a loop-step result (no extra token
consumed). -/
def asStep (r : Except FrontErr St) : Except FrontErr (St × Bool) :=
  match r with
  | .error e => .error e
  | .ok s => .ok (s, false)

/-- One iteration of the token loop: dispatch `tok` (already truncated to the
token buffer size).  The returned flag says whether one extra token was
consumed from `rest` (by `:` and the operand-taking keywords). -/
def compileStep (oracle : Nat → Bool) (tok : List Char)
    (rest : List (List Char)) (s : St) : Except FrontErr (St × Bool) :=
  if strEqCiL tok ":".data then handleColon rest s
  else if strEqCiL tok ";".data then handleSemicolon oracle s
  else if strEqCiL tok "BEGIN".data then handleBegin s
  else if strEqCiL tok "DO".data then handleDo oracle s
  else if strEqCiL tok "UNTIL".data then handleUntil oracle s
  else if strEqCiL tok "WHILE".data then handleWhile oracle s
  else if strEqCiL tok "REPEAT".data then handleRepeat oracle s
  else if strEqCiL tok "AGAIN".data then handleAgain oracle s
  else if strEqCiL tok "LEAVE".data then handleLeave oracle s
  else if strEqCiL tok "LOOP".data then handleLoop oracle s
  else if strEqCiL tok "+LOOP".data then handlePLoop oracle s
  else if strEqCiL tok "IF".data then handleIf oracle s
  else if strEqCiL tok "ELSE".data then handleElse oracle s
  else if strEqCiL tok "THEN".data then handleThen s
  else if strEqCiL tok "EXIT".data then asStep (emitByte oracle s opRET)
  else if strEqCiL tok "SYS".data then
    handleOperand oracle opSYS .MissingSysId .InvalidSysId rest s
  else if strEqCiL tok "EMIT".data then asStep (emitList oracle s [opSYS, 0x30])
  else if strEqCiL tok "KEY".data then asStep (emitList oracle s [opSYS, 0x31])
  else if strEqCiL tok "L++".data then
    handleOperand oracle opLINC .MissingLocalIdx .InvalidLocalIdx rest s
  else if strEqCiL tok "L--".data then
    handleOperand oracle opLDEC .MissingLocalIdx .InvalidLocalIdx rest s
  else if strEqCiL tok "L@".data then
    handleOperand oracle opLGET .MissingLocalIdx .InvalidLocalIdx rest s
  else if strEqCiL tok "L!".data then
    handleOperand oracle opLSET .MissingLocalIdx .InvalidLocalIdx rest s
  else if strEqCiL tok "L>!".data then
    handleOperand oracle opLTEE .MissingLocalIdx .InvalidLocalIdx rest s
  else if strEqCiL tok "RECURSE".data then handleRecurse oracle s
  else asStep (dispatchRest oracle tok s)

/-! ## Token loop, end-of-input processing, top level -/

/-- The token loop.  `fuel` only forces structural recursion; each iteration
consumes at least one token, so `tokens.length + 1` fuel never runs out. -/
def compileLoop (oracle : Nat → Bool) :
    Nat → List (List Char) → St → Except FrontErr St
  | _, [], s => .ok s
  | 0, _ :: _, _ => .error .OutOfMemory
  | fuel + 1, t :: rest, s =>
    match compileStep oracle (t.take (MAX_TOKEN_LEN - 1)) rest s with
    | .error e => .error e
    | .ok (s', extra) =>
      compileLoop oracle fuel (if extra then rest.drop 1 else rest) s'

/-- `frameErr`: classify the top unclosed frame at end of input. -/
def frameErr : Frame → FrontErr
  | .ifF .. => .UnclosedIf
  | .doF .. => .UnclosedDo
  | .beginF .. => .UnclosedBegin

/-- The per-name `strdup` loop of the word-table transfer: one allocation per
name, in order; `none` when one fails. -/
def strdupAll (oracle : Nat → Bool) : Nat → List WordDef → Option Nat
  | cnt, [] => some cnt
  | cnt, _ :: ws => if oracle cnt then strdupAll oracle (cnt + 1) ws else none

/-- The trailing-`RET` peephole and final buffer hand-over: append `RET`
unless the byte at `size-3` of the main buffer equals the `JMP` opcode (the
source's check for "last instruction is an unconditional jump").  `ws`/`wc`
are whatever the word-table transfer already stored in the output. -/
def finishMain (oracle : Nat → Bool) (cnt : Nat) (mb : EmitSt)
    (ws : Option (List WordDef)) (wc : Nat) : CompRes :=
  if mb.buf.length ≥ 3 && mb.buf.getD (mb.buf.length - 3) 0 = opJMP then
    ⟨.OK, ⟨some mb.buf, mb.buf.length, ws, wc⟩⟩
  else
    match appendByteE oracle mb cnt opRET with
    | .error _ => ⟨.OutOfMemory, ⟨none, 0, ws, wc⟩⟩
    | .ok (mb', _) => ⟨.OK, ⟨some mb'.buf, mb'.buf.length, ws, wc⟩⟩

/-- End-of-input processing: unclosed-structure checks, word-table transfer
into the output (array `malloc` then one `strdup` per name; on a failed
`strdup` the source frees the array but leaves the output's `words` pointer
dangling and non-null, modelled as `some []`), then the trailing-`RET`
peephole. -/
def compileFinish (oracle : Nat → Bool) (s : St) : CompRes :=
  match s.ctrl with
  | f :: _ => ⟨frameErr f, zeroBuf⟩
  | [] =>
    if s.inDef then ⟨.UnclosedColon, zeroBuf⟩
    else
      if s.dict.length > 0 then
        if oracle s.cnt then
          match strdupAll oracle (s.cnt + 1) s.dict with
          | none => ⟨.OutOfMemory, ⟨none, 0, some [], 0⟩⟩
          | some cnt' =>
            finishMain oracle cnt' s.main (some s.dict) s.dict.length
        else ⟨.OutOfMemory, zeroBuf⟩
      else finishMain oracle s.cnt s.main none 0

/-- `compile_internal` with a null context: zero the output, special-case the
empty source, run the token loop, then the end-of-input processing.  The
result records both the returned error code and the final contents of the
output structure. -/
def compile_internal (oracle : Nat → Bool) (src : String) : CompRes :=
  if src.isEmpty then
    match appendByteE oracle ⟨[], 0⟩ 0 opRET with
    | .error _ => ⟨.OutOfMemory, zeroBuf⟩
    | .ok (e, _) => ⟨.OK, ⟨some e.buf, e.buf.length, none, 0⟩⟩
  else
    match compileLoop oracle ((tokenize src.data).length + 1)
        (tokenize src.data) initSt with
    | .error e => ⟨e, zeroBuf⟩
    | .ok s => compileFinish oracle s

/-- The allocation oracle under which every allocation succeeds (the normal
situation all concrete scenarios assume). -/
def allocAlways : Nat → Bool := fun _ => true

/-! ## On-disk container (`bytecode_io.cpp`) -/

def V4B_MAGIC : List Nat := [0x56, 0x34, 0x42, 0x43]

/-- Little-endian `uint32` bytes. -/
def u32le (n : Nat) : List Nat :=
  [n % 256, n / 256 % 256, n / 65536 % 256, n / 16777216 % 256]

/-- Read a little-endian `uint32` from the first four bytes. -/
def rdU32le (bs : List Nat) : Nat :=
  bs.getD 0 0 + 256 * bs.getD 1 0 + 65536 * bs.getD 2 0 +
    16777216 * bs.getD 3 0

/-- `v4front_save_bytecode`: reject a null/empty buffer, then write the
16-byte header (magic, version 0.1, zero flags, code size, zero reserved)
followed by `size` bytes of the main bytecode.  The result is the byte
content of the written file. -/
def v4front_save_bytecode (buf : V4FrontBuf) : Except Int (List Nat) :=
  match buf.data with
  | none => .error (-1)
  | some d =>
    if buf.size = 0 then .error (-1)
    else
      .ok (V4B_MAGIC ++ [0, 1] ++ [0, 0] ++ u32le buf.size ++ [0, 0, 0, 0] ++
           d.take buf.size)

/-- `v4front_load_bytecode` on a file's byte content: read the 16-byte header
(`-3` when the file is shorter), validate the magic (`-4`), allocate the code
buffer (`-5` on allocation failure), read `code_size` bytes (`-6` when fewer
remain).  Version, flags and reserved fields are read but not validated. -/
def v4front_load_bytecode (oracle : Nat → Bool) (file : List Nat) :
    Except Int V4FrontBuf :=
  if file.length < 16 then .error (-3)
  else if file.take 4 ≠ V4B_MAGIC then .error (-4)
  else
    let codeSize := rdU32le (file.drop 8)
    if oracle 0 = false then .error (-5)
    else if (file.drop 16).length < codeSize then .error (-6)
    else .ok ⟨some ((file.drop 16).take codeSize), codeSize, none, 0⟩

/-! ## Verification predicates -/

/-- Every word definition in the dictionary has a non-empty body ending in
the `RET` byte. -/
def DictOK (dict : List WordDef) : Prop :=
  ∀ w ∈ dict, w.code ≠ [] ∧ w.code.getLast? = some opRET

/-! # Theorems -/

/-! ## Basic lemmas about the emitters -/

theorem appendByteE_ok {o : Nat → Bool} {e : EmitSt} {c : Nat} {b : Nat}
    {e' : EmitSt} {c' : Nat} (h : appendByteE o e c b = .ok (e', c')) :
    e'.buf = e.buf ++ [b] := by
  unfold appendByteE at h
  split at h
  · split at h
    · simp only [Except.ok.injEq, Prod.mk.injEq] at h
      rw [← h.1]
    · cases h
  · simp only [Except.ok.injEq, Prod.mk.injEq] at h
    rw [← h.1]

theorem emitByte_ok {o : Nat → Bool} {s : St} {b : Nat} {s' : St}
    (h : emitByte o s b = .ok s') :
    s'.dict = s.dict ∧ s'.inDef = s.inDef ∧ s'.curName = s.curName ∧
      s'.ctrl = s.ctrl ∧ curData s' = curData s ++ [b] := by
  unfold emitByte at h
  split at h
  next hd =>
    split at h
    · cases h
    next w c hw =>
      simp only [Except.ok.injEq] at h
      subst h
      refine ⟨rfl, rfl, rfl, rfl, ?_⟩
      simp [curData, hd, appendByteE_ok hw]
  next hd =>
    split at h
    · cases h
    next m c hw =>
      simp only [Except.ok.injEq] at h
      subst h
      refine ⟨rfl, rfl, rfl, rfl, ?_⟩
      simp only [Bool.not_eq_true] at hd
      simp [curData, hd, appendByteE_ok hw]

theorem emitList_ok {o : Nat → Bool} {bs : List Nat} :
    ∀ {s s' : St}, emitList o s bs = .ok s' →
    s'.dict = s.dict ∧ s'.inDef = s.inDef ∧ s'.curName = s.curName ∧
      s'.ctrl = s.ctrl ∧ curData s' = curData s ++ bs := by
  induction bs with
  | nil =>
    intro s s' h
    simp only [emitList, Except.ok.injEq] at h
    subst h
    simp
  | cons b bs ih =>
    intro s s' h
    unfold emitList at h
    split at h
    · cases h
    next s1 h1 =>
      obtain ⟨d1, i1, n1, c1, m1⟩ := emitByte_ok h1
      obtain ⟨d2, i2, n2, c2, m2⟩ := ih h
      exact ⟨d2.trans d1, i2.trans i1, n2.trans n1, c2.trans c1,
        by rw [m2, m1, List.append_assoc]; rfl⟩

theorem emitByte_always (s : St) (b : Nat) :
    ∃ s', emitByte allocAlways s b = .ok s' ∧ s'.dict = s.dict ∧
      s'.inDef = s.inDef ∧ s'.curName = s.curName ∧ s'.ctrl = s.ctrl ∧
      curData s' = curData s ++ [b] := by
  have hne : ∀ e c, ∃ e' c', appendByteE allocAlways e c b = .ok (e', c') := by
    intro e c
    unfold appendByteE allocAlways
    split
    · exact ⟨_, _, rfl⟩
    · exact ⟨_, _, rfl⟩
  by_cases hd : s.inDef
  · obtain ⟨e', c', hw⟩ := hne s.wordB s.cnt
    exact ⟨{ s with wordB := e', cnt := c' }, by simp [emitByte, hd, hw], rfl,
      rfl, rfl, rfl, by simp [curData, hd, appendByteE_ok hw]⟩
  · obtain ⟨e', c', hw⟩ := hne s.main s.cnt
    simp only [Bool.not_eq_true] at hd
    exact ⟨{ s with main := e', cnt := c' }, by simp [emitByte, hd, hw], rfl,
      rfl, rfl, rfl, by simp [curData, hd, appendByteE_ok hw]⟩

theorem emitList_always (bs : List Nat) :
    ∀ s : St, ∃ s', emitList allocAlways s bs = .ok s' ∧ s'.dict = s.dict ∧
      s'.inDef = s.inDef ∧ s'.curName = s.curName ∧ s'.ctrl = s.ctrl ∧
      curData s' = curData s ++ bs := by
  induction bs with
  | nil => exact fun s => ⟨s, rfl, rfl, rfl, rfl, rfl, by simp⟩
  | cons b bs ih =>
    intro s
    obtain ⟨s1, h1, d1, i1, n1, c1, m1⟩ := emitByte_always s b
    obtain ⟨s2, h2, d2, i2, n2, c2, m2⟩ := ih s1
    refine ⟨s2, ?_, d2.trans d1, i2.trans i1, n2.trans n1, c2.trans c1, ?_⟩
    · unfold emitList
      rw [h1]
      exact h2
    · rw [m2, m1, List.append_assoc]; rfl

theorem patchCur_fields (s : St) (pos : Nat) (v : Int) :
    (patchCur s pos v).dict = s.dict ∧ (patchCur s pos v).inDef = s.inDef ∧
      (patchCur s pos v).curName = s.curName ∧
      (patchCur s pos v).ctrl = s.ctrl := by
  unfold patchCur
  split <;> exact ⟨rfl, rfl, rfl, rfl⟩

/-! ## Claim theorems: concrete scenarios -/

/-- Claim C1: compiling `"1 IF 42 THEN"` succeeds and produces the main
bytecode `[00 01 00 00 00 41 05 00 00 2A 00 00 00 51]` of length 14 with zero
word definitions; the back-patched forward `JZ` offset is
`13 - 8 = 5` (`05 00` at positions 6-7). -/
theorem claim_C1 :
    compile_internal allocAlways "1 IF 42 THEN" =
      ⟨.OK, ⟨some [0x00, 0x01, 0x00, 0x00, 0x00, 0x41, 0x05, 0x00, 0x00, 0x2A,
        0x00, 0x00, 0x00, 0x51], 14, none, 0⟩⟩ ∧
    (0x05 : Int) = 13 - (6 + 2) := by
  constructor
  · decide
  · decide

/-- Claim C2 (code bug): `"BEGIN DUP AGAIN"` does compile to `[01 40 FC FF]`
with the trailing `RET` suppressed, but the suppression rule only inspects
the byte at `size - 3`, so `"16384"` (`LIT 0x00004000`, whose middle
immediate byte `0x40` lands exactly at `size - 3`) also loses its trailing
`RET` even though the final emitted instruction is a `LIT`, not a `JMP`:
the output is `[00 00 40 00 00]` and does not end in `RET`. -/
theorem claim_C2_bug :
    compile_internal allocAlways "BEGIN DUP AGAIN" =
      ⟨.OK, ⟨some [0x01, 0x40, 0xFC, 0xFF], 4, none, 0⟩⟩ ∧
    compile_internal allocAlways "16384" =
      ⟨.OK, ⟨some [0x00, 0x00, 0x40, 0x00, 0x00], 5, none, 0⟩⟩ ∧
    [0x00, 0x00, 0x40, 0x00, 0x00].getLast? ≠ some opRET := by
  refine ⟨by decide, by decide, by decide⟩

/-- Claim C3 counterexample: the integer parser does not reject values one
past the `i32` bounds and does not treat every non-`0x` token as decimal:
`"2147483648"` (`i32::MAX + 1`) compiles to a `LIT` with the wrapped value
`-2^31` (bytes `00 00 00 80`), and `"010"` is parsed as octal 8 rather than
decimal 10. -/
theorem claim_C3_cex :
    compile_internal allocAlways "2147483648" =
      ⟨.OK, ⟨some [0x00, 0x00, 0x00, 0x00, 0x80, 0x51], 6, none, 0⟩⟩ ∧
    compile_internal allocAlways "010" =
      ⟨.OK, ⟨some [0x00, 0x08, 0x00, 0x00, 0x00, 0x51], 6, none, 0⟩⟩ := by
  refine ⟨by decide, by decide⟩

/-- Claim C3 (amended): the integer parser has `strtol(.., 0)` semantics on
an LP64 platform: optional leading `-` or `+`; `0x`/`0X` prefix selects hex,
any other leading `0` selects octal, otherwise decimal; it succeeds only if
the entire token is consumed; there is no `i32` range check — the long value
(clamped to the 64-bit long range) is truncated to 32 bits two's-complement.
Hence `i32::MIN` and `i32::MAX` compile to `LIT` instructions, but so does a
literal one past either bound, with the wrapped value, and unparsable tokens
fall through to the unknown-token path. -/
theorem claim_C3_amended :
    compile_internal allocAlways "-2147483648" =
      ⟨.OK, ⟨some [0x00, 0x00, 0x00, 0x00, 0x80, 0x51], 6, none, 0⟩⟩ ∧
    compile_internal allocAlways "2147483647" =
      ⟨.OK, ⟨some [0x00, 0xFF, 0xFF, 0xFF, 0x7F, 0x51], 6, none, 0⟩⟩ ∧
    compile_internal allocAlways "2147483648" =
      ⟨.OK, ⟨some [0x00, 0x00, 0x00, 0x00, 0x80, 0x51], 6, none, 0⟩⟩ ∧
    compile_internal allocAlways "-2147483649" =
      ⟨.OK, ⟨some [0x00, 0xFF, 0xFF, 0xFF, 0x7F, 0x51], 6, none, 0⟩⟩ ∧
    compile_internal allocAlways "010" =
      ⟨.OK, ⟨some [0x00, 0x08, 0x00, 0x00, 0x00, 0x51], 6, none, 0⟩⟩ ∧
    compile_internal allocAlways "0x2A" =
      ⟨.OK, ⟨some [0x00, 0x2A, 0x00, 0x00, 0x00, 0x51], 6, none, 0⟩⟩ ∧
    compile_internal allocAlways "+7" =
      ⟨.OK, ⟨some [0x00, 0x07, 0x00, 0x00, 0x00, 0x51], 6, none, 0⟩⟩ ∧
    compile_internal allocAlways "--1" = ⟨.UnknownToken, zeroBuf⟩ ∧
    compile_internal allocAlways "0xG" = ⟨.UnknownToken, zeroBuf⟩ := by
  refine ⟨by decide, by decide, by decide, by decide, by decide, by decide,
    by decide, by decide, by decide⟩

/-- Claim C5 (code bug): when the allocation that appends the trailing `RET`
to the main buffer fails (the fourth allocation of `": W ;"`, after the word
table has already been transferred into the output), the call fails with
`OutOfMemory` but the output is *not* zero-initialized: its `words` pointer
is set and `word_count` is 1, so the caller's free operation is neither a
no-op nor safe against the claim's expectation. -/
theorem claim_C5_bug :
    compile_internal (fun n => n < 3) ": W ;" =
      ⟨.OutOfMemory, ⟨none, 0, some [⟨"W", [opRET]⟩], 1⟩⟩ ∧
    isZeroInit ⟨none, 0, some [⟨"W", [opRET]⟩], 1⟩ = false := by
  refine ⟨by decide, by decide⟩

/-! ## Case-insensitive comparison as lowered equality, dispatch reduction -/

theorem strEqCiL_eq_decide (a : List Char) :
    ∀ b : List Char,
      strEqCiL a b = decide (a.map toLowerA = b.map toLowerA) := by
  induction a with
  | nil => intro b; cases b <;> simp [strEqCiL]
  | cons x xs ih => intro b; cases b <;> simp [strEqCiL, ih]

/-- If `tok` case-insensitively equals `a`, and `a` does not
case-insensitively equal `b`, then `tok` does not case-insensitively equal
`b`. -/
theorem strEqCiL_trans_ne {tok a b : List Char} (h1 : strEqCiL tok a = true)
    (h2 : strEqCiL a b = false) : strEqCiL tok b = false := by
  simp only [strEqCiL_eq_decide, decide_eq_true_eq,
    decide_eq_false_iff_not] at h1 h2 ⊢
  rw [h1]; exact h2

/-- A token that case-insensitively matches a composite pseudo-word matches
none of the structural/operand keywords. -/
theorem composite_not_reserved {tok : List Char}
    (h : isCompositeTok tok = true) : isReservedTok tok = false := by
  simp only [isCompositeTok, Bool.or_eq_true, or_assoc] at h
  rcases h with h | h | h | h | h | h | h | h | h | h | h | h | h | h | h | h |
    h | h | h | h <;>
  · simp only [isReservedTok, Bool.or_eq_false_iff, and_assoc]
    exact ⟨strEqCiL_trans_ne h (by decide), strEqCiL_trans_ne h (by decide),
      strEqCiL_trans_ne h (by decide), strEqCiL_trans_ne h (by decide),
      strEqCiL_trans_ne h (by decide), strEqCiL_trans_ne h (by decide),
      strEqCiL_trans_ne h (by decide), strEqCiL_trans_ne h (by decide),
      strEqCiL_trans_ne h (by decide), strEqCiL_trans_ne h (by decide),
      strEqCiL_trans_ne h (by decide), strEqCiL_trans_ne h (by decide),
      strEqCiL_trans_ne h (by decide), strEqCiL_trans_ne h (by decide),
      strEqCiL_trans_ne h (by decide), strEqCiL_trans_ne h (by decide),
      strEqCiL_trans_ne h (by decide), strEqCiL_trans_ne h (by decide),
      strEqCiL_trans_ne h (by decide), strEqCiL_trans_ne h (by decide),
      strEqCiL_trans_ne h (by decide), strEqCiL_trans_ne h (by decide),
      strEqCiL_trans_ne h (by decide), strEqCiL_trans_ne h (by decide)⟩

/-- When the token matches no structural or operand keyword, the token loop
falls through to the dictionary/integer/composite/primitive dispatch. -/
theorem compileStep_not_reserved {tok : List Char}
    (h : isReservedTok tok = false) (o : Nat → Bool)
    (rest : List (List Char)) (s : St) :
    compileStep o tok rest s = asStep (dispatchRest o tok s) := by
  simp only [isReservedTok, Bool.or_eq_false_iff, and_assoc] at h
  obtain ⟨h1, h2, h3, h4, h5, h6, h7, h8, h9, h10, h11, h12, h13, h14, h15,
    h16, h17, h18, h19, h20, h21, h22, h23, h24⟩ := h
  simp only [compileStep, h1, h2, h3, h4, h5, h6, h7, h8, h9, h10, h11, h12,
    h13, h14, h15, h16, h17, h18, h19, h20, h21, h22, h23, h24,
    Bool.false_eq_true, if_false]

/-- A dictionary hit (reached after all keyword branches failed) emits a
`CALL` to the local index. -/
theorem dictHit_emits_call (s : St) (tok : List Char)
    (rest : List (List Char)) (i : Nat) (hres : isReservedTok tok = false)
    (hdict : dictFindCi s.dict tok = some i) :
    ∃ s', compileStep allocAlways tok rest s = .ok (s', false) ∧
      curData s' = curData s ++ opCALL :: i16bytes (i : Int) ∧
      s'.dict = s.dict := by
  rw [compileStep_not_reserved hres]
  obtain ⟨s', h, hd, _, _, _, hcur⟩ :=
    emitList_always (opCALL :: i16bytes (i : Int)) s
  refine ⟨s', ?_, hcur, hd⟩
  simp only [dispatchRest, hdict]
  rw [h]
  rfl

/-! ## Claim C6 -/

/-- Claim C6 counterexample: for `": NEGATE DUP ; NEGATE"` the token `NEGATE`
matches both the composite pseudo-word and the freshly defined local word,
and the emitted main bytecode is `CALL 0; RET` (`[50 00 00 51]`) — not the
composite `NEGATE` expansion (`LIT0 SWAP SUB` followed by `RET`). -/
theorem claim_C6_cex :
    compile_internal allocAlways ": NEGATE DUP ; NEGATE" =
      ⟨.OK, ⟨some [opCALL, 0x00, 0x00, opRET], 4,
        some [⟨"NEGATE", [opDUP, opRET]⟩], 1⟩⟩ ∧
    [opCALL, 0x00, 0x00, opRET] ≠ negateBytes ++ [opRET] := by
  refine ⟨by decide, by decide⟩

/-- Claim C6 (amended): when a token matches, case-insensitively, both a
composite pseudo-word and a user-defined word present in the local word
table, the `CALL` to the user word's local index is emitted, because the
driver consults the local word table before the composite pseudo-words and
the first match wins. -/
theorem claim_C6_amended (s : St) (tok : List Char) (rest : List (List Char))
    (i : Nat) (hcomp : isCompositeTok tok = true)
    (hdict : dictFindCi s.dict tok = some i) :
    ∃ s', compileStep allocAlways tok rest s = .ok (s', false) ∧
      curData s' = curData s ++ opCALL :: i16bytes (i : Int) ∧
      s'.dict = s.dict :=
  dictHit_emits_call s tok rest i (composite_not_reserved hcomp) hdict

theorem claim_C6_witness :
    ∃ s', compileStep allocAlways "NEGATE".data []
        { initSt with dict := [⟨"NEGATE", [opDUP, opRET]⟩] } = .ok (s', false) ∧
      curData s' =
        curData { initSt with dict := [⟨"NEGATE", [opDUP, opRET]⟩] } ++
          opCALL :: i16bytes 0 ∧
      s'.dict = [⟨"NEGATE", [opDUP, opRET]⟩] :=
  claim_C6_amended _ _ _ 0 (by decide) (by decide)

/-! ## Claim C8 -/

/-- Claim C8: the `SYS` keyword consumes exactly one following token as an
8-bit unsigned operand and emits the `SYS` opcode byte followed by that
operand byte; with no following token compilation fails with `MissingSysId`,
and with a token that does not parse as an integer in `[0,255]` it fails with
`InvalidSysId` — in particular `"SYS"` fails with `MissingSysId` and
`"SYS 256"` with `InvalidSysId`. -/
theorem claim_C8 :
    (∀ s : St, compileStep allocAlways "SYS".data [] s = .error .MissingSysId)
    ∧ (∀ (s : St) (t : List Char) (ts : List (List Char)),
        try_parse_int (t.take (MAX_TOKEN_LEN - 1)) = none →
        compileStep allocAlways "SYS".data (t :: ts) s = .error .InvalidSysId)
    ∧ (∀ (s : St) (t : List Char) (ts : List (List Char)) (v : Int),
        try_parse_int (t.take (MAX_TOKEN_LEN - 1)) = some v →
        (v < 0 ∨ v > 255) →
        compileStep allocAlways "SYS".data (t :: ts) s = .error .InvalidSysId)
    ∧ (∀ (s : St) (t : List Char) (ts : List (List Char)) (v : Int),
        try_parse_int (t.take (MAX_TOKEN_LEN - 1)) = some v →
        0 ≤ v → v ≤ 255 →
        ∃ s', compileStep allocAlways "SYS".data (t :: ts) s = .ok (s', true) ∧
          curData s' = curData s ++ [opSYS, v.toNat])
    ∧ compile_internal allocAlways "SYS" = ⟨.MissingSysId, zeroBuf⟩
    ∧ compile_internal allocAlways "SYS 256" = ⟨.InvalidSysId, zeroBuf⟩ := by
  have hstep : ∀ (rest : List (List Char)) (s : St),
      compileStep allocAlways "SYS".data rest s =
        handleOperand allocAlways opSYS .MissingSysId .InvalidSysId rest s :=
    fun _ _ => rfl
  refine ⟨?_, ?_, ?_, ?_, by decide, by decide⟩
  · intro s; rw [hstep]; rfl
  · intro s t ts hp
    rw [hstep]
    simp only [handleOperand, hp]
  · intro s t ts v hp hrange
    rw [hstep]
    simp only [handleOperand, hp]
    rw [if_pos]
    rcases hrange with h | h
    · simp [h]
    · simp [h]
  · intro s t ts v hp h0 h255
    rw [hstep]
    obtain ⟨s', hemit, _, _, _, _, hcur⟩ := emitList_always [opSYS, v.toNat] s
    refine ⟨s', ?_, hcur⟩
    simp only [handleOperand, hp]
    rw [if_neg, hemit]
    simp only [Bool.or_eq_true, decide_eq_true_eq, not_or, not_lt]
    omega

theorem claim_C8_witness :
    compileStep allocAlways "SYS".data [] initSt = .error .MissingSysId ∧
    compileStep allocAlways "SYS".data ["256".data] initSt =
      .error .InvalidSysId ∧
    (∃ s', compileStep allocAlways "SYS".data ["48".data] initSt =
      .ok (s', true) ∧ curData s' = curData initSt ++ [opSYS, (48 : Int).toNat]) :=
  ⟨claim_C8.1 initSt,
   claim_C8.2.2.1 initSt "256".data [] 256 (by decide) (by decide),
   claim_C8.2.2.2.1 initSt "48".data [] 48 (by decide) (by decide) (by decide)⟩

/-! ## Claim C10 -/

/-- Claim C10: defining a word whose name equals, case-insensitively, a
primitive mnemonic is accepted (the colon handler checks the name only
against previously defined words), and any later token that hits the local
word table — consulted before the primitive dispatch table — emits a `CALL`
to the local index instead of the primitive opcode; no primitive-table entry
is shadowed by a structural/operand keyword branch. -/
theorem claim_C10 :
    (∀ (s : St) (name : List Char) (ts : List (List Char)),
      s.inDef = false → 0 < name.length → name.length < MAX_WORD_NAME_LEN →
      (∀ w ∈ s.dict, strEqCiL w.name.data name = false) →
      s.dict.length < MAX_WORDS →
      compileStep allocAlways ":".data (name :: ts) s =
        .ok ({ s with inDef := true, curName := ⟨name⟩, wordB := ⟨[], 0⟩ },
             true))
    ∧ (∀ (s : St) (tok : List Char) (rest : List (List Char)) (i : Nat),
        isReservedTok tok = false → dictFindCi s.dict tok = some i →
        ∃ s', compileStep allocAlways tok rest s = .ok (s', false) ∧
          curData s' = curData s ++ opCALL :: i16bytes (i : Int) ∧
          s'.dict = s.dict)
    ∧ (∀ e ∈ OPCODE_TABLE, isReservedTok e.1.data = false) := by
  refine ⟨?_, dictHit_emits_call, by decide⟩
  intro s name ts hdef hpos hlen hdup hfull
  have hstep : compileStep allocAlways ":".data (name :: ts) s =
      handleColon (name :: ts) s := rfl
  rw [hstep]
  have h0 : ¬ name.length = 0 := by omega
  have h64 : ¬ name.length ≥ MAX_WORD_NAME_LEN := by omega
  have hany : (s.dict.any fun w => strEqCiL w.name.data name) = false := by
    rw [List.any_eq_false]
    intro w hw
    simp [hdup w hw]
  have hfull' : ¬ s.dict.length ≥ MAX_WORDS := by omega
  simp [handleColon, hdef, h0, h64, hany, hfull']

theorem claim_C10_witness :
    compileStep allocAlways ":".data ["DUP".data] initSt =
      .ok ({ initSt with inDef := true, curName := "DUP", wordB := ⟨[], 0⟩ },
           true) ∧
    (∃ s', compileStep allocAlways "DUP".data []
        { initSt with dict := [⟨"DUP", [opLIT, 1, 0, 0, 0, opRET]⟩] } =
          .ok (s', false) ∧
      curData s' =
        curData { initSt with dict := [⟨"DUP", [opLIT, 1, 0, 0, 0, opRET]⟩] } ++
          opCALL :: i16bytes 0 ∧
      s'.dict = [⟨"DUP", [opLIT, 1, 0, 0, 0, opRET]⟩]) :=
  ⟨claim_C10.1 initSt "DUP".data [] rfl (by decide) (by decide)
      (by decide) (by decide),
   claim_C10.2.1 _ "DUP".data [] 0 (by decide) (by decide)⟩

/-! ## Claim C7 -/

theorem tokenize_all_space {cs : List Char}
    (h : ∀ c ∈ cs, isSpaceC c = true) : tokenize cs = [] := by
  have hfold : cs.foldr tokStep ([], false) = ([], false) := by
    induction cs with
    | nil => rfl
    | cons c cs ih =>
      have hc := h c (by simp)
      have ih' := ih (fun c' hc' => h c' (by simp [hc']))
      simp [List.foldr, ih', tokStep, hc]
  simp [tokenize, hfold]

/-- Claim C7: for a null or zero-length source, and likewise for any source
consisting only of ASCII whitespace, compilation succeeds and the output is
the single byte `RET` with zero word definitions.  (A null source pointer
takes the same empty-input branch as the empty string.) -/
theorem claim_C7 (src : String) (h : ∀ c ∈ src.data, isSpaceC c = true) :
    compile_internal allocAlways src =
      ⟨.OK, ⟨some [opRET], 1, none, 0⟩⟩ := by
  by_cases he : src.isEmpty
  · unfold compile_internal
    rw [if_pos he]
    decide
  · unfold compile_internal
    rw [if_neg (by simp [he])]
    rw [tokenize_all_space h]
    decide

theorem claim_C7_witness :
    compile_internal allocAlways " \t\n " =
      ⟨.OK, ⟨some [opRET], 1, none, 0⟩⟩ :=
  claim_C7 " \t\n " (by decide)

/-! ## Claim C9 -/

theorem rdU32le_prepend (n : Nat) (rest : List Nat) (h : n < 4294967296) :
    rdU32le (u32le n ++ rest) = n := by
  simp [u32le, rdU32le]
  omega

/-- Claim C9: for every compilation output with a non-empty main bytecode,
saving it to the on-disk container and loading that file back yields a main
bytecode byte-equal to the original with no word definitions (words are not
persisted), and loading a file whose first four bytes are not the magic
`"V4BC"` fails with a negative error code (`-4`; `-3` for files shorter than
the 16-byte header). -/
theorem claim_C9 :
    (∀ (b : V4FrontBuf) (d : List Nat), b.data = some d → b.size = d.length →
      d ≠ [] → d.length < 4294967296 →
      ∃ f, v4front_save_bytecode b = .ok f ∧
        v4front_load_bytecode allocAlways f = .ok ⟨some d, d.length, none, 0⟩)
    ∧ (∀ file : List Nat, file.take 4 ≠ V4B_MAGIC →
      ∃ e : Int, v4front_load_bytecode allocAlways file = .error e ∧ e < 0) := by
  constructor
  · intro b d hdata hsize hne hlt
    refine ⟨V4B_MAGIC ++ [0, 1] ++ [0, 0] ++ u32le d.length ++ [0, 0, 0, 0] ++ d,
      ?_, ?_⟩
    · have hdne : ¬ d.length = 0 := by simpa using hne
      simp only [v4front_save_bytecode, hdata, hsize, List.take_length]
      rw [if_neg hdne]
    · unfold v4front_load_bytecode
      have hlen : (V4B_MAGIC ++ [0, 1] ++ [0, 0] ++ u32le d.length ++
          [0, 0, 0, 0] ++ d).length = 16 + d.length := by
        simp [V4B_MAGIC, u32le]
        omega
      rw [if_neg (by omega)]
      rw [if_neg (by simp [V4B_MAGIC, u32le])]
      have hdrop8 : (V4B_MAGIC ++ [0, 1] ++ [0, 0] ++ u32le d.length ++
          [0, 0, 0, 0] ++ d).drop 8 = u32le d.length ++ ([0, 0, 0, 0] ++ d) := by
        simp [V4B_MAGIC, u32le]
      have hdrop16 : (V4B_MAGIC ++ [0, 1] ++ [0, 0] ++ u32le d.length ++
          [0, 0, 0, 0] ++ d).drop 16 = d := by
        simp [V4B_MAGIC, u32le]
      rw [hdrop8, rdU32le_prepend d.length ([0, 0, 0, 0] ++ d) hlt]
      rw [if_neg (by simp [allocAlways])]
      rw [hdrop16]
      rw [if_neg (by omega)]
      rw [List.take_length]
  · intro file hm
    by_cases hlt : file.length < 16
    · exact ⟨-3, by unfold v4front_load_bytecode; rw [if_pos hlt], by norm_num⟩
    · refine ⟨-4, ?_, by norm_num⟩
      unfold v4front_load_bytecode
      rw [if_neg hlt, if_pos hm]

theorem claim_C9_witness :
    (∃ f, v4front_save_bytecode ⟨some [opRET], 1, none, 0⟩ = .ok f ∧
      v4front_load_bytecode allocAlways f = .ok ⟨some [opRET], 1, none, 0⟩) ∧
    (∃ e : Int, v4front_load_bytecode allocAlways (List.replicate 16 7) =
      .error e ∧ e < 0) :=
  ⟨claim_C9.1 ⟨some [opRET], 1, none, 0⟩ [opRET] rfl rfl (by decide) (by decide),
   claim_C9.2 (List.replicate 16 7) (by decide)⟩

/-! ## Dictionary preservation through the token loop (for claim C4) -/

theorem asStep_ok {r : Except FrontErr St} {s' : St} {b : Bool}
    (h : asStep r = .ok (s', b)) : r = .ok s' := by
  unfold asStep at h
  split at h
  · exact Except.noConfusion h
  next s1 =>
    simp only [Except.ok.injEq, Prod.mk.injEq] at h
    rw [h.1]

theorem handleColon_dict {rest : List (List Char)} {s s' : St} {b : Bool}
    (h : handleColon rest s = .ok (s', b)) : s'.dict = s.dict := by
  unfold handleColon at h
  split at h
  · exact Except.noConfusion h
  · split at h
    · exact Except.noConfusion h
    · split at h
      · exact Except.noConfusion h
      · split at h
        · exact Except.noConfusion h
        · split at h
          · exact Except.noConfusion h
          · simp only [Except.ok.injEq, Prod.mk.injEq] at h
            obtain ⟨h1, -⟩ := h
            rw [← h1]

theorem handleSemicolon_dict {o : Nat → Bool} {s s' : St} {b : Bool}
    (h : handleSemicolon o s = .ok (s', b)) :
    s'.dict = s.dict ++ [⟨s.curName, s.wordB.buf ++ [opRET]⟩] := by
  unfold handleSemicolon at h
  split at h
  · exact Except.noConfusion h
  next hdef =>
    split at h
    · exact Except.noConfusion h
    next s1 hemit =>
      simp only [Bool.not_eq_false] at hdef
      obtain ⟨hd1, hi1, hn1, -, hcur⟩ := emitByte_ok hemit
      have hi1' : s1.inDef = true := hi1.trans hdef
      rw [curData, curData, if_pos hi1', if_pos hdef] at hcur
      simp only [Except.ok.injEq, Prod.mk.injEq] at h
      obtain ⟨h1, -⟩ := h
      rw [← h1]
      simp only [hd1, hn1, hcur]

theorem handleBegin_dict {s s' : St} {b : Bool}
    (h : handleBegin s = .ok (s', b)) : s'.dict = s.dict := by
  unfold handleBegin at h
  split at h
  · exact Except.noConfusion h
  · simp only [Except.ok.injEq, Prod.mk.injEq] at h
    obtain ⟨h1, -⟩ := h
    rw [← h1]

theorem handleDo_dict {o : Nat → Bool} {s s' : St} {b : Bool}
    (h : handleDo o s = .ok (s', b)) : s'.dict = s.dict := by
  unfold handleDo at h
  split at h
  · exact Except.noConfusion h
  · split at h
    · exact Except.noConfusion h
    next s1 hlist =>
      simp only [Except.ok.injEq, Prod.mk.injEq] at h
      obtain ⟨h1, -⟩ := h
      rw [← h1]
      exact (emitList_ok hlist).1

theorem handleUntil_dict {o : Nat → Bool} {s s' : St} {b : Bool}
    (h : handleUntil o s = .ok (s', b)) : s'.dict = s.dict := by
  unfold handleUntil at h
  split at h
  · exact Except.noConfusion h
  · exact Except.noConfusion h
  · exact Except.noConfusion h
  · split at h
    · exact Except.noConfusion h
    · split at h
      · exact Except.noConfusion h
      next s1 hemit =>
        split at h
        · exact Except.noConfusion h
        next s2 hlist =>
          simp only [Except.ok.injEq, Prod.mk.injEq] at h
          obtain ⟨h1, -⟩ := h
          rw [← h1]
          exact ((emitList_ok hlist).1).trans (emitByte_ok hemit).1

theorem handleWhile_dict {o : Nat → Bool} {s s' : St} {b : Bool}
    (h : handleWhile o s = .ok (s', b)) : s'.dict = s.dict := by
  unfold handleWhile at h
  split at h
  · exact Except.noConfusion h
  · exact Except.noConfusion h
  · exact Except.noConfusion h
  · split at h
    · exact Except.noConfusion h
    · split at h
      · exact Except.noConfusion h
      next s1 hemit =>
        split at h
        · exact Except.noConfusion h
        next s2 hlist =>
          simp only [Except.ok.injEq, Prod.mk.injEq] at h
          obtain ⟨h1, -⟩ := h
          rw [← h1]
          exact ((emitList_ok hlist).1).trans (emitByte_ok hemit).1

theorem handleRepeat_dict {o : Nat → Bool} {s s' : St} {b : Bool}
    (h : handleRepeat o s = .ok (s', b)) : s'.dict = s.dict := by
  unfold handleRepeat at h
  split at h
  · exact Except.noConfusion h
  · exact Except.noConfusion h
  · exact Except.noConfusion h
  · split at h
    · exact Except.noConfusion h
    · split at h
      · exact Except.noConfusion h
      next s1 hemit =>
        split at h
        · exact Except.noConfusion h
        next s2 hlist =>
          simp only [Except.ok.injEq, Prod.mk.injEq] at h
          obtain ⟨h1, -⟩ := h
          rw [← h1]
          exact ((patchCur_fields s2 _ _).1).trans
            (((emitList_ok hlist).1).trans (emitByte_ok hemit).1)

theorem handleAgain_dict {o : Nat → Bool} {s s' : St} {b : Bool}
    (h : handleAgain o s = .ok (s', b)) : s'.dict = s.dict := by
  unfold handleAgain at h
  split at h
  · exact Except.noConfusion h
  · exact Except.noConfusion h
  · exact Except.noConfusion h
  · split at h
    · exact Except.noConfusion h
    · split at h
      · exact Except.noConfusion h
      next s1 hemit =>
        split at h
        · exact Except.noConfusion h
        next s2 hlist =>
          simp only [Except.ok.injEq, Prod.mk.injEq] at h
          obtain ⟨h1, -⟩ := h
          rw [← h1]
          exact ((emitList_ok hlist).1).trans (emitByte_ok hemit).1

theorem handleLeave_dict {o : Nat → Bool} {s s' : St} {b : Bool}
    (h : handleLeave o s = .ok (s', b)) : s'.dict = s.dict := by
  unfold handleLeave at h
  split at h
  · exact Except.noConfusion h
  · split at h
    · exact Except.noConfusion h
    · split at h
      next doAddr leaves heq =>
        split at h
        · exact Except.noConfusion h
        · split at h
          · exact Except.noConfusion h
          next s1 hlist1 =>
            split at h
            · exact Except.noConfusion h
            next s2 hlist2 =>
              simp only [Except.ok.injEq, Prod.mk.injEq] at h
              obtain ⟨h1, -⟩ := h
              rw [← h1]
              exact ((emitList_ok hlist2).1).trans (emitList_ok hlist1).1
      · exact Except.noConfusion h

theorem foldl_patchCur_dict (f : Nat → Int) (leaves : List Nat) :
    ∀ s : St, (leaves.foldl (fun t a => patchCur t a (f a)) s).dict = s.dict := by
  induction leaves with
  | nil => intro s; rfl
  | cons a as ih =>
    intro s
    simp only [List.foldl]
    exact (ih (patchCur s a (f a))).trans (patchCur_fields s a (f a)).1

theorem loopTail_dict {o : Nat → Bool} {s : St} {doAddr : Nat}
    {leaves : List Nat} {fs : List Frame} {s' : St} {b : Bool}
    (h : loopTail o s doAddr leaves fs = .ok (s', b)) : s'.dict = s.dict := by
  unfold loopTail at h
  split at h
  · exact Except.noConfusion h
  next s1 h1 =>
    split at h
    · exact Except.noConfusion h
    next s2 h2 =>
      split at h
      · exact Except.noConfusion h
      next s3 h3 =>
        split at h
        · exact Except.noConfusion h
        next s4 h4 =>
          split at h
          · exact Except.noConfusion h
          next s6 h6 =>
            simp only [Except.ok.injEq, Prod.mk.injEq] at h
            obtain ⟨hs, -⟩ := h
            rw [← hs]
            have hd6 := (emitList_ok h6).1
            have hd5 := (patchCur_fields s4 (curLen s1)
              ((curLen s4 : Int) - (curLen s1 + 2))).1
            have hd4 := (emitList_ok h4).1
            have hd3 := (emitList_ok h3).1
            have hd2 := (emitList_ok h2).1
            have hd1 := (emitList_ok h1).1
            calc (leaves.foldl _ s6).dict
                = s6.dict := foldl_patchCur_dict _ leaves s6
              _ = s.dict := by rw [hd6, hd5, hd4, hd3, hd2, hd1]

theorem handleLoop_dict {o : Nat → Bool} {s s' : St} {b : Bool}
    (h : handleLoop o s = .ok (s', b)) : s'.dict = s.dict := by
  unfold handleLoop at h
  split at h
  · exact Except.noConfusion h
  · exact Except.noConfusion h
  · exact Except.noConfusion h
  · split at h
    · exact Except.noConfusion h
    next s1 hlist =>
      exact (loopTail_dict h).trans (emitList_ok hlist).1

theorem handlePLoop_dict {o : Nat → Bool} {s s' : St} {b : Bool}
    (h : handlePLoop o s = .ok (s', b)) : s'.dict = s.dict := by
  unfold handlePLoop at h
  split at h
  · exact Except.noConfusion h
  · exact Except.noConfusion h
  · exact Except.noConfusion h
  · split at h
    · exact Except.noConfusion h
    next s1 hlist =>
      exact (loopTail_dict h).trans (emitList_ok hlist).1

theorem handleIf_dict {o : Nat → Bool} {s s' : St} {b : Bool}
    (h : handleIf o s = .ok (s', b)) : s'.dict = s.dict := by
  unfold handleIf at h
  split at h
  · exact Except.noConfusion h
  · split at h
    · exact Except.noConfusion h
    next s1 hemit =>
      split at h
      · exact Except.noConfusion h
      next s2 hlist =>
        simp only [Except.ok.injEq, Prod.mk.injEq] at h
        obtain ⟨h1, -⟩ := h
        rw [← h1]
        exact ((emitList_ok hlist).1).trans (emitByte_ok hemit).1

theorem handleElse_dict {o : Nat → Bool} {s s' : St} {b : Bool}
    (h : handleElse o s = .ok (s', b)) : s'.dict = s.dict := by
  unfold handleElse at h
  split at h
  · exact Except.noConfusion h
  · exact Except.noConfusion h
  · exact Except.noConfusion h
  · split at h
    · exact Except.noConfusion h
    · split at h
      · exact Except.noConfusion h
      next s1 hemit =>
        split at h
        · exact Except.noConfusion h
        next s2 hlist =>
          simp only [Except.ok.injEq, Prod.mk.injEq] at h
          obtain ⟨h1, -⟩ := h
          rw [← h1]
          exact ((patchCur_fields s2 _ _).1).trans
            (((emitList_ok hlist).1).trans (emitByte_ok hemit).1)

theorem handleThen_dict {s s' : St} {b : Bool}
    (h : handleThen s = .ok (s', b)) : s'.dict = s.dict := by
  unfold handleThen at h
  split at h
  · exact Except.noConfusion h
  · exact Except.noConfusion h
  · exact Except.noConfusion h
  · split at h
    · simp only [Except.ok.injEq, Prod.mk.injEq] at h
      obtain ⟨h1, -⟩ := h
      rw [← h1]
      exact (patchCur_fields _ _ _).1
    · simp only [Except.ok.injEq, Prod.mk.injEq] at h
      obtain ⟨h1, -⟩ := h
      rw [← h1]
      exact (patchCur_fields _ _ _).1

theorem handleOperand_dict {o : Nat → Bool} {op : Nat} {e1 e2 : FrontErr}
    {rest : List (List Char)} {s s' : St} {b : Bool}
    (h : handleOperand o op e1 e2 rest s = .ok (s', b)) : s'.dict = s.dict := by
  unfold handleOperand at h
  split at h
  · exact Except.noConfusion h
  · split at h
    · exact Except.noConfusion h
    · split at h
      · exact Except.noConfusion h
      · split at h
        · exact Except.noConfusion h
        next s1 hlist =>
          simp only [Except.ok.injEq, Prod.mk.injEq] at h
          obtain ⟨h1, -⟩ := h
          rw [← h1]
          exact (emitList_ok hlist).1

theorem handleRecurse_dict {o : Nat → Bool} {s s' : St} {b : Bool}
    (h : handleRecurse o s = .ok (s', b)) : s'.dict = s.dict := by
  unfold handleRecurse at h
  split at h
  · exact Except.noConfusion h
  · split at h
    · exact Except.noConfusion h
    next s1 hlist =>
      simp only [Except.ok.injEq, Prod.mk.injEq] at h
      obtain ⟨h1, -⟩ := h
      rw [← h1]
      exact (emitList_ok hlist).1

theorem dispatchRest_dict {o : Nat → Bool} {tok : List Char} {s s' : St}
    (h : dispatchRest o tok s = .ok s') : s'.dict = s.dict := by
  unfold dispatchRest at h
  split at h
  next i heq => exact (emitList_ok h).1
  next heq =>
  split at h
  next v heq2 => exact (emitList_ok h).1
  next heq2 =>
  by_cases c1 : strEqCiL tok "J".data = true
  · rw [if_pos c1] at h; exact (emitList_ok h).1
  rw [if_neg c1] at h
  by_cases c2 : strEqCiL tok "K".data = true
  · rw [if_pos c2] at h; exact (emitList_ok h).1
  rw [if_neg c2] at h
  by_cases c3 : strEqCiL tok "ROT".data = true
  · rw [if_pos c3] at h; exact (emitList_ok h).1
  rw [if_neg c3] at h
  by_cases c4 : strEqCiL tok "NIP".data = true
  · rw [if_pos c4] at h; exact (emitList_ok h).1
  rw [if_neg c4] at h
  by_cases c5 : strEqCiL tok "TUCK".data = true
  · rw [if_pos c5] at h; exact (emitList_ok h).1
  rw [if_neg c5] at h
  by_cases c6 : strEqCiL tok "NEGATE".data = true
  · rw [if_pos c6] at h; exact (emitList_ok h).1
  rw [if_neg c6] at h
  by_cases c7 : strEqCiL tok "?DUP".data = true
  · rw [if_pos c7] at h; exact (emitList_ok h).1
  rw [if_neg c7] at h
  by_cases c8 : strEqCiL tok "ABS".data = true
  · rw [if_pos c8] at h; exact (emitList_ok h).1
  rw [if_neg c8] at h
  by_cases c9 : strEqCiL tok "MIN".data = true
  · rw [if_pos c9] at h; exact (emitList_ok h).1
  rw [if_neg c9] at h
  by_cases c10 : strEqCiL tok "MAX".data = true
  · rw [if_pos c10] at h; exact (emitList_ok h).1
  rw [if_neg c10] at h
  by_cases c11 : strEqCiL tok "0=".data = true
  · rw [if_pos c11] at h; exact (emitList_ok h).1
  rw [if_neg c11] at h
  by_cases c12 : strEqCiL tok "0<".data = true
  · rw [if_pos c12] at h; exact (emitList_ok h).1
  rw [if_neg c12] at h
  by_cases c13 : strEqCiL tok "0>".data = true
  · rw [if_pos c13] at h; exact (emitList_ok h).1
  rw [if_neg c13] at h
  by_cases c14 : strEqCiL tok "2DUP".data = true
  · rw [if_pos c14] at h; exact (emitList_ok h).1
  rw [if_neg c14] at h
  by_cases c15 : strEqCiL tok "2DROP".data = true
  · rw [if_pos c15] at h; exact (emitList_ok h).1
  rw [if_neg c15] at h
  by_cases c16 : strEqCiL tok "2SWAP".data = true
  · rw [if_pos c16] at h; exact (emitList_ok h).1
  rw [if_neg c16] at h
  by_cases c17 : strEqCiL tok "2OVER".data = true
  · rw [if_pos c17] at h; exact (emitList_ok h).1
  rw [if_neg c17] at h
  by_cases c18 : strEqCiL tok "+!".data = true
  · rw [if_pos c18] at h; exact (emitList_ok h).1
  rw [if_neg c18] at h
  by_cases c19 : strEqCiL tok "TRUE".data = true
  · rw [if_pos c19] at h; exact (emitByte_ok h).1
  rw [if_neg c19] at h
  by_cases c20 : strEqCiL tok "FALSE".data = true
  · rw [if_pos c20] at h; exact (emitByte_ok h).1
  rw [if_neg c20] at h
  split at h
  · exact (emitByte_ok h).1
  · exact Except.noConfusion h

/-- One token-loop iteration preserves the RET-termination invariant: most
branches leave the dictionary unchanged; `;` appends an entry whose body was
just terminated with `RET`. -/
theorem compileStep_dictOK {o : Nat → Bool} {tok : List Char}
    {rest : List (List Char)} {s s' : St} {b : Bool} (hD : DictOK s.dict)
    (h : compileStep o tok rest s = .ok (s', b)) : DictOK s'.dict := by
  have preserved : s'.dict = s.dict → DictOK s'.dict := fun he => he ▸ hD
  unfold compileStep at h
  by_cases c1 : strEqCiL tok ":".data = true
  · rw [if_pos c1] at h; exact preserved (handleColon_dict h)
  rw [if_neg c1] at h
  by_cases c2 : strEqCiL tok ";".data = true
  · rw [if_pos c2] at h
    rw [handleSemicolon_dict h]
    intro w hw
    rcases List.mem_append.mp hw with hold | hnew
    · exact hD w hold
    · rcases List.mem_singleton.mp hnew with rfl
      refine ⟨by simp, ?_⟩
      rw [List.getLast?_concat]
  rw [if_neg c2] at h
  by_cases c3 : strEqCiL tok "BEGIN".data = true
  · rw [if_pos c3] at h; exact preserved (handleBegin_dict h)
  rw [if_neg c3] at h
  by_cases c4 : strEqCiL tok "DO".data = true
  · rw [if_pos c4] at h; exact preserved (handleDo_dict h)
  rw [if_neg c4] at h
  by_cases c5 : strEqCiL tok "UNTIL".data = true
  · rw [if_pos c5] at h; exact preserved (handleUntil_dict h)
  rw [if_neg c5] at h
  by_cases c6 : strEqCiL tok "WHILE".data = true
  · rw [if_pos c6] at h; exact preserved (handleWhile_dict h)
  rw [if_neg c6] at h
  by_cases c7 : strEqCiL tok "REPEAT".data = true
  · rw [if_pos c7] at h; exact preserved (handleRepeat_dict h)
  rw [if_neg c7] at h
  by_cases c8 : strEqCiL tok "AGAIN".data = true
  · rw [if_pos c8] at h; exact preserved (handleAgain_dict h)
  rw [if_neg c8] at h
  by_cases c9 : strEqCiL tok "LEAVE".data = true
  · rw [if_pos c9] at h; exact preserved (handleLeave_dict h)
  rw [if_neg c9] at h
  by_cases c10 : strEqCiL tok "LOOP".data = true
  · rw [if_pos c10] at h; exact preserved (handleLoop_dict h)
  rw [if_neg c10] at h
  by_cases c11 : strEqCiL tok "+LOOP".data = true
  · rw [if_pos c11] at h; exact preserved (handlePLoop_dict h)
  rw [if_neg c11] at h
  by_cases c12 : strEqCiL tok "IF".data = true
  · rw [if_pos c12] at h; exact preserved (handleIf_dict h)
  rw [if_neg c12] at h
  by_cases c13 : strEqCiL tok "ELSE".data = true
  · rw [if_pos c13] at h; exact preserved (handleElse_dict h)
  rw [if_neg c13] at h
  by_cases c14 : strEqCiL tok "THEN".data = true
  · rw [if_pos c14] at h; exact preserved (handleThen_dict h)
  rw [if_neg c14] at h
  by_cases c15 : strEqCiL tok "EXIT".data = true
  · rw [if_pos c15] at h; exact preserved (emitByte_ok (asStep_ok h)).1
  rw [if_neg c15] at h
  by_cases c16 : strEqCiL tok "SYS".data = true
  · rw [if_pos c16] at h; exact preserved (handleOperand_dict h)
  rw [if_neg c16] at h
  by_cases c17 : strEqCiL tok "EMIT".data = true
  · rw [if_pos c17] at h; exact preserved (emitList_ok (asStep_ok h)).1
  rw [if_neg c17] at h
  by_cases c18 : strEqCiL tok "KEY".data = true
  · rw [if_pos c18] at h; exact preserved (emitList_ok (asStep_ok h)).1
  rw [if_neg c18] at h
  by_cases c19 : strEqCiL tok "L++".data = true
  · rw [if_pos c19] at h; exact preserved (handleOperand_dict h)
  rw [if_neg c19] at h
  by_cases c20 : strEqCiL tok "L--".data = true
  · rw [if_pos c20] at h; exact preserved (handleOperand_dict h)
  rw [if_neg c20] at h
  by_cases c21 : strEqCiL tok "L@".data = true
  · rw [if_pos c21] at h; exact preserved (handleOperand_dict h)
  rw [if_neg c21] at h
  by_cases c22 : strEqCiL tok "L!".data = true
  · rw [if_pos c22] at h; exact preserved (handleOperand_dict h)
  rw [if_neg c22] at h
  by_cases c23 : strEqCiL tok "L>!".data = true
  · rw [if_pos c23] at h; exact preserved (handleOperand_dict h)
  rw [if_neg c23] at h
  by_cases c24 : strEqCiL tok "RECURSE".data = true
  · rw [if_pos c24] at h; exact preserved (handleRecurse_dict h)
  rw [if_neg c24] at h
  exact preserved (dispatchRest_dict (asStep_ok h))

/-- The token loop preserves the RET-termination invariant. -/
theorem compileLoop_dictOK {o : Nat → Bool} :
    ∀ (fuel : Nat) (toks : List (List Char)) (s s' : St),
      DictOK s.dict → compileLoop o fuel toks s = .ok s' → DictOK s'.dict := by
  intro fuel
  induction fuel with
  | zero =>
    intro toks s s' hD h
    cases toks with
    | nil =>
      simp only [compileLoop, Except.ok.injEq] at h
      rwa [← h]
    | cons t ts => exact Except.noConfusion h
  | succ n ih =>
    intro toks s s' hD h
    cases toks with
    | nil =>
      simp only [compileLoop, Except.ok.injEq] at h
      rwa [← h]
    | cons t ts =>
      rw [compileLoop] at h
      split at h
      · exact Except.noConfusion h
      next s1 extra hstep =>
        exact ih _ s1 s' (compileStep_dictOK hD hstep) h

theorem frameErr_ne_OK (f : Frame) : frameErr f ≠ .OK := by
  cases f <;> simp [frameErr]

theorem finishMain_words (o : Nat → Bool) (cnt : Nat) (mb : EmitSt)
    (ws : Option (List WordDef)) (wc : Nat) :
    (finishMain o cnt mb ws wc).out.words = ws := by
  unfold finishMain
  split
  · rfl
  · split
    · rfl
    · rfl

/-- On a successful end of compilation, the output's word list is exactly the
accumulated dictionary (or absent when no word was defined). -/
theorem compileFinish_words {o : Nat → Bool} {s : St} {out : V4FrontBuf}
    (h : compileFinish o s = ⟨.OK, out⟩) :
    out.words = none ∨ out.words = some s.dict := by
  unfold compileFinish at h
  split at h
  · exact absurd (congrArg CompRes.err h) (frameErr_ne_OK _)
  split at h
  · exact FrontErr.noConfusion (show FrontErr.UnclosedColon = FrontErr.OK from
      congrArg CompRes.err h)
  split at h
  · split at h
    · split at h
      · exact FrontErr.noConfusion (show FrontErr.OutOfMemory = FrontErr.OK
          from congrArg CompRes.err h)
      · rename_i cnt' heq'
        right
        have hww : (finishMain o cnt' s.main (some s.dict)
            s.dict.length).out.words = out.words := by rw [h]
        rw [finishMain_words] at hww
        exact hww.symm
    · exact FrontErr.noConfusion (show FrontErr.OutOfMemory = FrontErr.OK
        from congrArg CompRes.err h)
  · left
    have hww : (finishMain o s.cnt s.main none 0).out.words = out.words := by
      rw [h]
    rw [finishMain_words] at hww
    exact hww.symm

/-- Claim C4: for every source (and any allocation behaviour) that compiles
successfully, every word definition's code sequence in the output ends with
the `RET` byte (the `RET` appended when its closing `;` is processed). -/
theorem claim_C4 (oracle : Nat → Bool) (src : String) (out : V4FrontBuf)
    (ws : List WordDef) (h : compile_internal oracle src = ⟨.OK, out⟩)
    (hw : out.words = some ws) :
    ∀ w ∈ ws, w.code ≠ [] ∧ w.code.getLast? = some opRET := by
  unfold compile_internal at h
  split at h
  · split at h
    · simp only [CompRes.mk.injEq] at h
      obtain ⟨-, hout⟩ := h
      rw [← hout] at hw
      exact Option.noConfusion hw
    · simp only [CompRes.mk.injEq] at h
      obtain ⟨-, hout⟩ := h
      rw [← hout] at hw
      exact Option.noConfusion hw
  · split at h
    · simp only [CompRes.mk.injEq] at h
      obtain ⟨-, hout⟩ := h
      rw [← hout] at hw
      exact Option.noConfusion hw
    next s hloop =>
      have hD : DictOK s.dict :=
        compileLoop_dictOK _ _ initSt s
          (fun w hw' => absurd hw' (by simp [initSt])) hloop
      rcases compileFinish_words h with hnone | hsome
      · rw [hw] at hnone
        exact Option.noConfusion hnone
      · rw [hw] at hsome
        have hws : ws = s.dict := Option.some.inj hsome
        rw [hws]
        exact hD

theorem claim_C4_witness :
    (WordDef.mk "DOUBLE" [opDUP, opADD, opRET]).code ≠ [] ∧
    (WordDef.mk "DOUBLE" [opDUP, opADD, opRET]).code.getLast? = some opRET :=
  claim_C4 allocAlways ": DOUBLE DUP + ; 5 DOUBLE"
    ⟨some [opLIT, 5, 0, 0, 0, opCALL, 0, 0, opRET], 9,
      some [⟨"DOUBLE", [opDUP, opADD, opRET]⟩], 1⟩
    [⟨"DOUBLE", [opDUP, opADD, opRET]⟩] (by decide) rfl
    (WordDef.mk "DOUBLE" [opDUP, opADD, opRET]) (by decide)

end V4Front
